import Mathlib

/-!
# Verification of the selfthoughts experiment runner

Shallow embedding of `src/selfthoughts.py`: the resilient-JSON response
pipeline (`_extract_json_object`, `parse_model_json`), the note compactor
(`compact_notes`), the prompt renderers (`render_prior`,
`render_thought_history`) and the three run controllers (`baseline_run`,
`loop_run`, `thoughts_run`).

The external inference call (`ollama_chat`) is modelled by an oracle giving
one `CallResult` per iteration: either the assistant text or a transport
error (in the Python code a transport error makes `ollama_chat` call
`sys.exit(1)`).  Log appends are modelled by the list of records a run
produces; timestamps and latencies (wall-clock IO) and the floating-point
sampling parameters are left out of the record model.

`json.loads` (Python standard library) is modelled by an executable strict
JSON parser `jsonLoads`; Python's `str()` on decoded JSON values is
modelled by `pyStr`/`pyRepr`.
-/

namespace SelfThoughts

/-- Decoded JSON values, the results of Python's `json.loads`.
Numbers keep their source spelling; objects keep entries in source order
(duplicate keys possible, lookup takes the last as Python's dict does). -/
inductive Json where
  | null : Json
  | bool (b : Bool) : Json
  | num (lexeme : String) : Json
  | str (s : String) : Json
  | arr (items : List Json) : Json
  | obj (entries : List (String × Json)) : Json

mutual

/-- Structural equality of decoded values (no deriving handler exists for
the nested `List` positions, so the recursion is spelt out). -/
def Json.beq : Json → Json → Bool
  | .null, .null => true
  | .bool a, .bool b => a == b
  | .num a, .num b => a == b
  | .str a, .str b => a == b
  | .arr a, .arr b => Json.beqList a b
  | .obj a, .obj b => Json.beqEntries a b
  | _, _ => false

/-- Structural equality of item lists. -/
def Json.beqList : List Json → List Json → Bool
  | [], [] => true
  | x :: xs, y :: ys => Json.beq x y && Json.beqList xs ys
  | _, _ => false

/-- Structural equality of entry lists. -/
def Json.beqEntries : List (String × Json) → List (String × Json) → Bool
  | [], [] => true
  | (k, v) :: xs, (l, w) :: ys => k == l && Json.beq v w && Json.beqEntries xs ys
  | _, _ => false

end

mutual

/-- `Json.beq` answers `true` exactly on equal values. -/
theorem Json.beq_iff_eq : ∀ a b : Json, Json.beq a b = true ↔ a = b
  | .null, .null => by simp [Json.beq]
  | .bool _, .bool _ => by simp [Json.beq]
  | .num _, .num _ => by simp [Json.beq]
  | .str _, .str _ => by simp [Json.beq]
  | .arr a, .arr b => by simp [Json.beq, Json.beqList_iff_eq a b]
  | .obj a, .obj b => by simp [Json.beq, Json.beqEntries_iff_eq a b]
  | .null, .bool _ | .null, .num _ | .null, .str _ | .null, .arr _ | .null, .obj _
  | .bool _, .null | .bool _, .num _ | .bool _, .str _ | .bool _, .arr _ | .bool _, .obj _
  | .num _, .null | .num _, .bool _ | .num _, .str _ | .num _, .arr _ | .num _, .obj _
  | .str _, .null | .str _, .bool _ | .str _, .num _ | .str _, .arr _ | .str _, .obj _
  | .arr _, .null | .arr _, .bool _ | .arr _, .num _ | .arr _, .str _ | .arr _, .obj _
  | .obj _, .null | .obj _, .bool _ | .obj _, .num _ | .obj _, .str _ | .obj _, .arr _ =>
      by simp [Json.beq]

/-- `Json.beqList` answers `true` exactly on equal lists. -/
theorem Json.beqList_iff_eq : ∀ a b : List Json, Json.beqList a b = true ↔ a = b
  | [], [] => by simp [Json.beqList]
  | [], _ :: _ => by simp [Json.beqList]
  | _ :: _, [] => by simp [Json.beqList]
  | x :: xs, y :: ys => by
      simp [Json.beqList, Json.beq_iff_eq x y, Json.beqList_iff_eq xs ys]

/-- `Json.beqEntries` answers `true` exactly on equal entry lists. -/
theorem Json.beqEntries_iff_eq :
    ∀ a b : List (String × Json), Json.beqEntries a b = true ↔ a = b
  | [], [] => by simp [Json.beqEntries]
  | [], _ :: _ => by simp [Json.beqEntries]
  | _ :: _, [] => by simp [Json.beqEntries]
  | (k, v) :: xs, (l, w) :: ys => by
      simp [Json.beqEntries, Json.beq_iff_eq v w, Json.beqEntries_iff_eq xs ys,
        Prod.ext_iff, and_assoc]

end

instance : DecidableEq Json := fun a b =>
  decidable_of_iff (Json.beq a b = true) (Json.beq_iff_eq a b)

/-- Lookup in a decoded object: Python dicts built from JSON keep the last
binding of a repeated key. -/
def jget (entries : List (String × Json)) (k : String) : Option Json :=
  (entries.reverse.find? (fun e => e.1 = k)).map (fun e => e.2)

/-- The left-brace character, `"\x7b"`. -/
def lbrace : Char := Char.ofNat 123

/-- The right-brace character, `"\x7d"`. -/
def rbrace : Char := Char.ofNat 125

/-- A single-quote character, for Python `repr` of strings. -/
def squote : String := (Char.ofNat 39).toString

mutual

/-- Python `repr` of a decoded JSON value (as far as the program exercises
it: strings print in single quotes, escape refinements are not modelled). -/
def pyRepr : Json → String
  | .null => "None"
  | .bool b => if b then "True" else "False"
  | .num lexeme => lexeme
  | .str s => squote ++ s ++ squote
  | .arr items => "[" ++ String.intercalate ", " (pyReprList items) ++ "]"
  | .obj entries =>
      lbrace.toString ++ String.intercalate ", " (pyReprObj entries) ++ rbrace.toString

/-- `repr` of each array element. -/
def pyReprList : List Json → List String
  | [] => []
  | v :: vs => pyRepr v :: pyReprList vs

/-- `repr` of each object entry. -/
def pyReprObj : List (String × Json) → List String
  | [] => []
  | (k, v) :: es => (squote ++ k ++ squote ++ ": " ++ pyRepr v) :: pyReprObj es

end

/-- Python `str()` of a decoded JSON value: the string itself for `str`,
`repr` otherwise. -/
def pyStr : Json → String
  | .str s => s
  | v => pyRepr v

/-! ## The strict JSON parser (model of Python `json.loads`) -/

/-- JSON structural whitespace (RFC 8259 / `json.loads`). -/
def isJsonWs (c : Char) : Bool :=
  c = ' ' || c = '\t' || c = '\n' || c = '\r'

/-- Drop leading JSON whitespace. -/
def skipWs (cs : List Char) : List Char := cs.dropWhile isJsonWs

/-- Hexadecimal digit value. -/
def hexVal (c : Char) : Option Nat :=
  if '0' ≤ c ∧ c ≤ '9' then some (c.toNat - '0'.toNat)
  else if 'a' ≤ c ∧ c ≤ 'f' then some (c.toNat - 'a'.toNat + 10)
  else if 'A' ≤ c ∧ c ≤ 'F' then some (c.toNat - 'A'.toNat + 10)
  else none

/-- Decode the body of a JSON string literal after the opening quote, up to
and including the closing quote.  Strict mode: raw control characters are
rejected, as `json.loads` does by default. -/
def parseStrChars : Nat → List Char → Option (List Char × List Char)
  | 0, _ => none
  | _ + 1, [] => none
  | fuel + 1, c :: rest =>
    if c = '"' then some ([], rest)
    else if c = '\\' then
      match rest with
      | [] => none
      | e :: rest' =>
        if e = '"' ∨ e = '\\' ∨ e = '/' then
          (parseStrChars fuel rest').map (fun r => (e :: r.1, r.2))
        else if e = 'b' then
          (parseStrChars fuel rest').map (fun r => (Char.ofNat 8 :: r.1, r.2))
        else if e = 'f' then
          (parseStrChars fuel rest').map (fun r => (Char.ofNat 12 :: r.1, r.2))
        else if e = 'n' then
          (parseStrChars fuel rest').map (fun r => ('\n' :: r.1, r.2))
        else if e = 'r' then
          (parseStrChars fuel rest').map (fun r => ('\r' :: r.1, r.2))
        else if e = 't' then
          (parseStrChars fuel rest').map (fun r => ('\t' :: r.1, r.2))
        else if e = 'u' then
          match rest' with
          | h1 :: h2 :: h3 :: h4 :: rest'' =>
            match hexVal h1, hexVal h2, hexVal h3, hexVal h4 with
            | some a, some b, some cc, some d =>
              (parseStrChars fuel rest'').map
                (fun r => (Char.ofNat (((a * 16 + b) * 16 + cc) * 16 + d) :: r.1, r.2))
            | _, _, _, _ => none
          | _ => none
        else none
    else if c.toNat < 32 then none
    else (parseStrChars fuel rest).map (fun r => (c :: r.1, r.2))

/-- One or more decimal digits. -/
def digits1 (cs : List Char) : Option (List Char × List Char) :=
  let ds := cs.takeWhile Char.isDigit
  if ds.isEmpty then none else some (ds, cs.drop ds.length)

/-- Parse a JSON number token, returning its lexeme.  Grammar:
`-? (0 | [1-9][0-9]*) (. [0-9]+)? ([eE][+-]?[0-9]+)?`. -/
def parseNum (cs : List Char) : Option (String × List Char) :=
  let (sign, cs1) :=
    match cs with
    | '-' :: rest => (['-'], rest)
    | _ => (([] : List Char), cs)
  match cs1 with
  | [] => none
  | d :: _ =>
    if d.isDigit then
      let intPart :=
        if d = '0' then ['0']
        else cs1.takeWhile Char.isDigit
      let cs2 := cs1.drop intPart.length
      let (fracPart, cs3) :=
        match cs2 with
        | '.' :: rest =>
          match digits1 rest with
          | some (ds, rest') => ('.' :: ds, rest')
          | none => (([] : List Char), cs2)
        | _ => (([] : List Char), cs2)
      let (expPart, cs4) :=
        match cs3 with
        | e :: rest =>
          if e = 'e' ∨ e = 'E' then
            let (esign, rest1) :=
              match rest with
              | s :: rest' => if s = '+' ∨ s = '-' then ([s], rest') else (([] : List Char), rest)
              | [] => (([] : List Char), rest)
            match digits1 rest1 with
            | some (ds, rest') => (e :: (esign ++ ds), rest')
            | none => (([] : List Char), cs3)
          else (([] : List Char), cs3)
        | [] => (([] : List Char), cs3)
      some (String.mk (sign ++ intPart ++ fracPart ++ expPart), cs4)
    else none

mutual

/-- Parse one JSON value (after skipping leading whitespace). -/
def parseVal : Nat → List Char → Option (Json × List Char)
  | 0, _ => none
  | fuel + 1, cs =>
    match skipWs cs with
    | [] => none
    | c :: rest =>
      if c = lbrace then parseObjItems fuel rest []
      else if c = '[' then parseArrItems fuel rest []
      else if c = '"' then
        (parseStrChars (rest.length + 1) rest).map (fun r => (Json.str (String.mk r.1), r.2))
      else if c = 't' then
        match rest with
        | 'r' :: 'u' :: 'e' :: rest' => some (Json.bool true, rest')
        | _ => none
      else if c = 'f' then
        match rest with
        | 'a' :: 'l' :: 's' :: 'e' :: rest' => some (Json.bool false, rest')
        | _ => none
      else if c = 'n' then
        match rest with
        | 'u' :: 'l' :: 'l' :: rest' => some (Json.null, rest')
        | _ => none
      else if c = 'N' then
        match rest with
        | 'a' :: 'N' :: rest' => some (Json.num "nan", rest')
        | _ => none
      else if c = 'I' then
        match rest with
        | 'n' :: 'f' :: 'i' :: 'n' :: 'i' :: 't' :: 'y' :: rest' => some (Json.num "inf", rest')
        | _ => none
      else if c = '-' ∧ rest.head? = some 'I' then
        match rest with
        | 'I' :: 'n' :: 'f' :: 'i' :: 'n' :: 'i' :: 't' :: 'y' :: rest' =>
            some (Json.num "-inf", rest')
        | _ => none
      else if c.isDigit ∨ c = '-' then
        (parseNum (c :: rest)).map (fun r => (Json.num r.1, r.2))
      else none

/-- Parse the items of an array after `[`. -/
def parseArrItems : Nat → List Char → List Json → Option (Json × List Char)
  | 0, _, _ => none
  | fuel + 1, cs, acc =>
    match skipWs cs with
    | ']' :: rest => if acc.isEmpty then some (Json.arr [], rest) else none
    | cs' =>
      match parseVal fuel cs' with
      | none => none
      | some (v, rest) =>
        match skipWs rest with
        | ',' :: rest' => parseArrItems fuel rest' (acc ++ [v])
        | ']' :: rest' => some (Json.arr (acc ++ [v]), rest')
        | _ => none

/-- Parse the members of an object after the opening brace. -/
def parseObjItems : Nat → List Char → List (String × Json) → Option (Json × List Char)
  | 0, _, _ => none
  | fuel + 1, cs, acc =>
    match skipWs cs with
    | '"' :: rest =>
      match parseStrChars (rest.length + 1) rest with
      | none => none
      | some (kcs, rest1) =>
        match skipWs rest1 with
        | ':' :: rest2 =>
          match parseVal fuel rest2 with
          | none => none
          | some (v, rest3) =>
            match skipWs rest3 with
            | ',' :: rest4 => parseObjItems fuel rest4 (acc ++ [(String.mk kcs, v)])
            | c :: rest4 =>
                if c = rbrace then some (Json.obj (acc ++ [(String.mk kcs, v)]), rest4)
                else none
            | [] => none
        | _ => none
    | c :: rest => if c = rbrace ∧ acc.isEmpty then some (Json.obj [], rest) else none
    | [] => none

end

/-- Model of Python `json.loads`: parse exactly one JSON value with only
whitespace around it, else fail. -/
def jsonLoads (s : String) : Option Json :=
  let cs := s.toList
  match parseVal (2 * cs.length + 2) cs with
  | none => none
  | some (v, rest) => if (skipWs rest).isEmpty then some v else none

/-! ## The response extractor (`_extract_json_object`, `parse_model_json`) -/

/-- Python `str.strip()` whitespace (ASCII part). -/
def isPyWs (c : Char) : Bool :=
  c = ' ' || c = '\t' || c = '\n' || c = '\r' || c = Char.ofNat 11 || c = Char.ofNat 12

/-- Python `s.strip()`: drop leading and trailing whitespace. -/
def pyStripWs (cs : List Char) : List Char :=
  ((cs.dropWhile isPyWs).reverse.dropWhile isPyWs).reverse

/-- Python `s.strip(chars)`: drop leading and trailing characters drawn
from `set`. -/
def pyStripSet (set : List Char) (cs : List Char) : List Char :=
  ((cs.dropWhile set.contains).reverse.dropWhile set.contains).reverse

/-- Python `str.strip` on a `String`. -/
def pyStrip (s : String) : String := String.mk (pyStripWs s.toList)

/-- The depth-counted scan of `_extract_json_object`, started at the first
brace: `+1` per opening and `-1` per closing brace, answering the length of
the scanned span when the depth returns to zero, `none` when the text ends
first.  `depth` is the running counter (an integer, as in Python). -/
def scanLen : List Char → Int → Option Nat
  | [], _ => none
  | c :: rest, depth =>
    if c = lbrace then (scanLen rest (depth + 1)).map (· + 1)
    else if c = rbrace then
      if depth - 1 = 0 then some 1
      else (scanLen rest (depth - 1)).map (· + 1)
    else (scanLen rest depth).map (· + 1)

/-- The strip-and-defence stage of `_extract_json_object`: strip
whitespace, then peel a leading code fence (with optional `json` language
tag, compared case-insensitively). -/
def defence (text : String) : List Char :=
  let s0 := pyStripWs text.toList
  if ['`', '`', '`'].isPrefixOf s0 then
    let t := pyStripSet ['`', ' ', '\n'] s0
    if ['j', 's', 'o', 'n'].isPrefixOf (t.map Char.toLower) then pyStripWs (t.drop 4)
    else t
  else s0

/-- Embedding of `_extract_json_object`: strip the text, peel a leading
code fence, then bracket-match the first top-level object. -/
def extract_json_object (text : String) : Option String :=
  let tl := (defence text).dropWhile (· ≠ lbrace)
  if tl.isEmpty then none
  else (scanLen tl 0).map (fun n => String.mk (tl.take n))

/-- Python `\s` (ASCII part), as used by the rescue regex. -/
def isReWs (c : Char) : Bool :=
  c = ' ' || c = '\t' || c = '\n' || c = '\r' || c = Char.ofNat 11 || c = Char.ofNat 12

/-- The literal characters of `"next_thought"` (key pattern of the rescue
regex, quotes included). -/
def ntKey : List Char := '"' :: "next_thought".toList ++ ['"']

/-- Anchored match of the rescue regex
`"next_thought"\s*:\s*"([^"]+)"` at the head of `cs`, answering the
captured group. -/
def rescueAt (cs : List Char) : Option String :=
  if ntKey.isPrefixOf cs then
    let r1 := (cs.drop ntKey.length).dropWhile isReWs
    match r1 with
    | ':' :: r2 =>
      match r2.dropWhile isReWs with
      | '"' :: r3 =>
        let captured := r3.takeWhile (· ≠ '"')
        if captured.isEmpty then none
        else
          match r3.drop captured.length with
          | '"' :: _ => some (String.mk captured)
          | _ => none
      | _ => none
    | _ => none
  else none

/-- Leftmost match of the rescue regex: try an anchored match at each
position in turn, as `re.search` does. -/
def rescueSearch : List Char → Option String
  | [] => none
  | c :: rest =>
    match rescueAt (c :: rest) with
    | some v => some v
    | none => rescueSearch rest

/-- The `ValueError` message raised when every stage fails. -/
def parseErrorMsg (text : String) : String :=
  "Model did not return valid JSON.\nRaw:\n" ++ String.mk (text.toList.take 500) ++ "..."

/-- Embedding of `parse_model_json`: direct parse, then bracket-extracted
parse, then the `next_thought` regex rescue, else the `ValueError`. -/
def parse_model_json (text : String) : Except String Json :=
  match jsonLoads text with
  | some v => .ok v
  | none =>
    match extract_json_object text with
    | some candidate =>
      match jsonLoads candidate with
      | some v => .ok v
      | none =>
        match rescueSearch text.toList with
        | some v => .ok (Json.obj [("next_thought", Json.str v), ("notes", Json.obj [])])
        | none => .error (parseErrorMsg text)
    | none =>
      match rescueSearch text.toList with
      | some v => .ok (Json.obj [("next_thought", Json.str v), ("notes", Json.obj [])])
      | none => .error (parseErrorMsg text)

/-! ## Note compactor and prompt renderers -/

/-- Carried notes: the four fixed categories, values as decoded by the
parser (`compact_notes` keeps list elements as they are). -/
structure Notes where
  premises : List Json
  hypotheses : List Json
  uncertainties : List Json
  plan_next : List Json
deriving DecidableEq

/-- The initial notes of a run: all four categories empty. -/
def emptyNotes : Notes := ⟨[], [], [], []⟩

/-- One category of `compact_notes`: `notes.get(k, [])`, coerce a
non-list through `str`, keep the first `max_items` elements. -/
def compactField (entries : List (String × Json)) (k : String) (max_items : Nat) :
    List Json :=
  match jget entries k with
  | some (Json.arr l) => l.take max_items
  | some v => [Json.str (pyStr v)].take max_items
  | none => ([] : List Json).take max_items

/-- Embedding of `compact_notes`: keep only the top `max_items` items per
fixed category. -/
def compact_notes (entries : List (String × Json)) (max_items : Nat := 3) : Notes where
  premises := compactField entries "premises" max_items
  hypotheses := compactField entries "hypotheses" max_items
  uncertainties := compactField entries "uncertainties" max_items
  plan_next := compactField entries "plan_next" max_items

/-- Python `", ".join` over rendered items (`render_prior` applies it to
the stored values, which the program expects to be strings). -/
def joinNotes (l : List Json) : String :=
  String.intercalate ", " (l.map pyStr)

/-- Embedding of `render_prior`. -/
def render_prior (notes : Notes) : String :=
  "PRIOR NOTES (compressed):\n" ++
  "Premises*: [" ++ joinNotes notes.premises ++ "]\n" ++
  "Hypotheses*: [" ++ joinNotes notes.hypotheses ++ "]\n" ++
  "Uncertainties*: [" ++ joinNotes notes.uncertainties ++ "]\n" ++
  "Plan_next*: [" ++ joinNotes notes.plan_next ++ "]\n"

/-- Embedding of `render_thought_history`: the last `k` thoughts, most
recent first, or a placeholder line. -/
def render_thought_history (thoughts : List String) (k : Int) : String :=
  let recent := if k > 0 then thoughts.drop (thoughts.length - k.toNat) else []
  let lines := String.intercalate "\n" (recent.reverse.map (fun t => "- " ++ t))
  "THOUGHT HISTORY (most recent first):\n" ++ (if lines = "" then "- (none)" else lines)

/-! ## Prompt text constants (braces spelt `\x7b`/`\x7d`) -/

/-- The `SYSTEM_PROMPT` constant. -/
def SYSTEM_PROMPT : String :=
  "ROLE: Structured JSON generator.\n" ++
  "OUTPUT CONTRACT:\n" ++
  "- Return ONE (1) JSON object and NOTHING ELSE. No prose, no backticks, no prefix/suffix.\n" ++
  "- Use only double-quoted keys/strings. No trailing commas. UTF-8 safe.\n" ++
  "- If a field has no content, output an empty list [], not null.\n" ++
  "- Never include explanations, markdown, or comments.\n" ++
  "QUALITY GATE (perform silently before responding):\n" ++
  "1) Does the output parse as strict JSON? 2) Keys exactly match the schema? 3) No extra keys?\n" ++
  "If any check fails, fix it BEFORE responding.\n"

/-- The `FORMAT_INSTRUCTIONS` constant (baseline/loop schema text). -/
def FORMAT_INSTRUCTIONS : String :=
  "\nYou MUST output JSON that matches this schema EXACTLY:\n\n" ++
  "\x7b\n  \"notes\": \x7b\n" ++
  "    \"premises\": [\"<≤15 words>\", \"<≤15 words>\", \"<≤15 words>\"],\n" ++
  "    \"hypotheses\": [\"<≤15 words>\", \"<≤15 words>\"],\n" ++
  "    \"uncertainties\": [\"<≤15 words>\", \"<≤15 words>\"],\n" ++
  "    \"plan_next\": [\"<≤15 words>\", \"<≤15 words>\"]\n" ++
  "  \x7d,\n  \"answer\": \"<2-3 sentences (≤45 words total)>\"\n\x7d\n\n" ++
  "CONSTRAINTS:\n" ++
  "- Single JSON object only; no prose or markdown outside the JSON.\n" ++
  "- Use empty lists [] when a section has no items. No nulls. No extra keys.\n" ++
  "- Total words in notes ≤ 120.\n"

/-- The `BASE_INSTRUCTIONS` constant. -/
def BASE_INSTRUCTIONS : String :=
  "INSTRUCTIONS:\n" ++
  "1) From the SCENARIO, infer key premises, uncertainties, and 1–2 next actions (plan_next).\n" ++
  "2) Keep items concise (≤15 words each). Keep notes ≤120 words total.\n" ++
  "3) Output MUST conform to the schema and be valid JSON.\n"

/-- The `LOOP_INSTRUCTIONS` constant. -/
def LOOP_INSTRUCTIONS : String :=
  "INSTRUCTIONS:\n" ++
  "- Reconcile PRIOR NOTES with the SCENARIO. Identify conflicts silently and update only if justified.\n" ++
  "- Adjust premises/hypotheses when evidence requires; otherwise keep them stable.\n" ++
  "- Keep items concise. Notes ≤120 words total. JSON only, per schema.\n"

/-- The `THOUGHTS_FORMAT` constant (stepwise schema text). -/
def THOUGHTS_FORMAT : String :=
  "\nYou MUST output JSON that matches this schema EXACTLY:\n\n" ++
  "\x7b\n  \"next_thought\": \"<one sentence (5-18 words) that advances the reasoning>\",\n" ++
  "  \"notes\": \x7b\n" ++
  "    \"premises\": [\"<≤15 words>\", \"<≤15 words>\", \"<≤15 words>\"],\n" ++
  "    \"hypotheses\": [\"<≤15 words>\", \"<≤15 words>\"],\n" ++
  "    \"uncertainties\": [\"<≤15 words>\", \"<≤15 words>\"],\n" ++
  "    \"plan_next\": [\"<≤15 words>\", \"<≤15 words>\"]\n" ++
  "  \x7d\n\x7d\n\n" ++
  "RULES:\n" ++
  "- Emit EXACTLY ONE sentence in next_thought; no lists or multiple sentences.\n" ++
  "- Each list in notes may contain 0-3 items (premises up to 3; others up to 2).\n" ++
  "- Keep total words in all notes ≤ 80. Prefer concrete, operational phrases.\n" ++
  "- If you would repeat a prior thought, rephrase it to be more specific or produce the next incremental action instead.\n"

/-- The `THOUGHTS_INSTRUCTIONS` constant. -/
def THOUGHTS_INSTRUCTIONS : String :=
  "TASK:\n" ++
  "- Read SCENARIO and the recent THOUGHT HISTORY.\n" ++
  "- Produce exactly one new thought that pushes the plan forward.\n" ++
  "- Update notes ONLY if justified by either the SCENARIO or a prior thought.\n" ++
  "\n" ++
  "CONSTRAINTS:\n" ++
  "- Output MUST be a single JSON object that matches the schema.\n" ++
  "- No extra keys. No commentary. No markdown. No code fences.\n" ++
  "- Use empty lists [] if you have no update for a notes field.\n"

/-- The illustrative example block of the stepwise user prompt. -/
def THOUGHTS_EXAMPLE : String :=
  "EXAMPLE (illustrative only—replace with your own content):\n" ++
  "\x7b\"next_thought\":\"Measure current habitat load and isolate non-critical circuits.\"," ++
  "\"notes\":\x7b\"premises\":[\"Partial power\",\"Crew: 4\",\"Supplies: 30 days\"]," ++
  "\"hypotheses\":[\"Life support must be prioritized\"]," ++
  "\"uncertainties\":[\"Storm duration\"]," ++
  "\"plan_next\":[\"Read power telemetry\",\"Switch to low-power mode\"]\x7d\x7d\n\""

/-! ## Run controllers

The external call `ollama_chat` is modelled by an oracle giving one
`CallResult` per iteration.  In the Python code a
`requests.exceptions.RequestException` makes `ollama_chat` print a
diagnostic and call `sys.exit(1)`, so the run stops before the current
iteration's record is appended; the run functions below answer the list of
appended records together with the process exit code (`0` on normal
completion, `1` on a transport error). -/

/-- Outcome of one external inference call. -/
inductive CallResult where
  | ok (text : String) : CallResult
  | transportError (msg : String) : CallResult
deriving DecidableEq

/-- Whether the call delivered text. -/
def CallResult.isOk : CallResult → Bool
  | .ok _ => true
  | .transportError _ => false

/-- The payload recorded in place of a parsed response when every
extraction stage fails: `{"raw_text": text, "parse_error": str(e)}`. -/
def errorPayload (text msg : String) : Json :=
  Json.obj [("raw_text", Json.str text), ("parse_error", Json.str msg)]

/-- The `parsed` value of one iteration: the extractor's payload, or the
error payload built in the `except ValueError` branch. -/
def respOf (text : String) : Json :=
  match parse_model_json text with
  | .ok v => v
  | .error m => errorPayload text m

/-- The notes update of `loop_run` (lines 327–329): take `parsed["notes"]`
with default `{}` (and `{}` for a non-dict payload); when that value is a
dict, replace the carried notes by its compaction, else keep them. -/
def loopNotesUpdate (prior : Notes) (parsed : Json) : Notes :=
  let new_notes : Json :=
    match parsed with
    | .obj kvs => (jget kvs "notes").getD (Json.obj [])
    | _ => Json.obj []
  match new_notes with
  | .obj kvs => compact_notes kvs 3
  | _ => prior

/-- The notes update of `thoughts_run` (lines 411–415): the whole update
is guarded by `isinstance(parsed, dict)`, so a non-dict payload leaves the
carried notes untouched. -/
def thoughtsNotesUpdate (prior : Notes) (parsed : Json) : Notes :=
  match parsed with
  | .obj kvs =>
    match (jget kvs "notes").getD (Json.obj []) with
    | .obj kvs' => compact_notes kvs' 3
    | _ => prior
  | _ => prior

/-- The `next_thought` value of one stepwise iteration:
`str(parsed.get("next_thought", "")).strip()` when the payload is a dict,
else the initial `""`. -/
def nextThoughtOf (parsed : Json) : String :=
  match parsed with
  | .obj kvs => pyStrip (pyStr ((jget kvs "next_thought").getD (Json.str "")))
  | _ => ""

/-! ### Baseline mode -/

/-- One record of `baseline_run` (timestamp, latency and the float
sampling parameters are IO/float data and are not modelled). -/
structure BaseRecord where
  mode : String
  iteration : Nat
  model : String
  scenario : String
  prompt_kind : String
  response : Json
deriving DecidableEq

/-- The user message of one baseline iteration. -/
def basePrompt (scenario : String) : String :=
  "SCENARIO:\n" ++ scenario ++ "\n\n" ++ BASE_INSTRUCTIONS ++ "\n" ++ FORMAT_INSTRUCTIONS

/-- One baseline iteration: parse the response text and build the record. -/
def baseStep (scenario model : String) (i : Nat) (text : String) : BaseRecord :=
  { mode := "baseline", iteration := i, model := model, scenario := scenario,
    prompt_kind := "baseline", response := respOf text }

/-- The shared iteration loop of the three run controllers: run `rem` more
iterations starting at index `k`, threading the mode's carried state; a
transport error stops the run at once (before the current iteration's
record) with exit code `1`, and a completed run exits with `0`. -/
def runAux {σ ρ : Type} (step : Nat → σ → String → σ × ρ)
    (oracle : Nat → CallResult) : Nat → Nat → σ → List ρ × Nat
  | _, 0, _ => ([], 0)
  | k, rem + 1, st =>
    match oracle k with
    | .transportError _ => ([], 1)
    | .ok text =>
      let out := step k st text
      let rest := runAux step oracle (k + 1) rem out.1
      (out.2 :: rest.1, rest.2)

/-- Embedding of `baseline_run` (stateless): the appended records and the
exit code. -/
def baseline_run (scenario : String) (samples : Nat) (model : String)
    (oracle : Nat → CallResult) : List BaseRecord × Nat :=
  runAux (fun k _st text => ((), baseStep scenario model k text)) oracle 0 samples ()

/-! ### Loop mode -/

/-- The state `loop_run` carries across iterations. -/
structure LoopState where
  prior_notes : Notes
  current_scenario : String
deriving DecidableEq

/-- One record of `loop_run`. -/
structure LoopRecord where
  mode : String
  iteration : Nat
  model : String
  scenario : String
  prompt_kind : String
  prior_notes : Notes
  response : Json
  change_log : String
deriving DecidableEq

/-- The perturbation fragment appended to the scenario in loop mode. -/
def loopFragment (k : Nat) (perturb_text : String) : String :=
  "\n\nCHANGE LOG (Iteration " ++ toString k ++ "): " ++ perturb_text

/-- The user message of one loop iteration (built from the scenario in
effect and the carried notes *before* this iteration's update). -/
def loopPrompt (current_scenario : String) (notes : Notes) : String :=
  "SCENARIO:\n" ++ current_scenario ++ "\n\n" ++ render_prior notes ++ "\n" ++
  LOOP_INSTRUCTIONS ++ "\n" ++ FORMAT_INSTRUCTIONS

/-- One loop iteration: perturbation check, prompt, parse, notes update,
record.  Answers the new state, the appended record and the user message
sent to the model. -/
def loopStep (scenario : String) (perturb_at : Option Int) (perturb_text : String)
    (model : String) (k : Nat) (st : LoopState) (text : String) :
    LoopState × LoopRecord × String :=
  let fired := perturb_at = some (k : Int)
  let current := if fired then scenario ++ loopFragment k perturb_text
                 else st.current_scenario
  let change_log := if fired then
      "CHANGE LOG applied at iteration " ++ toString k ++ ": " ++ perturb_text
    else ""
  let prompt := loopPrompt current st.prior_notes
  let parsed := respOf text
  let notes' := loopNotesUpdate st.prior_notes parsed
  (⟨notes', current⟩,
   { mode := "loop", iteration := k, model := model, scenario := current,
     prompt_kind := "loop", prior_notes := notes', response := parsed,
     change_log := change_log },
   prompt)

/-- Embedding of `loop_run`: the appended records and the exit code. -/
def loop_run (scenario : String) (iterations : Nat) (perturb_at : Option Int)
    (perturb_text : String) (model : String) (oracle : Nat → CallResult) :
    List LoopRecord × Nat :=
  runAux
    (fun k st text =>
      let out := loopStep scenario perturb_at perturb_text model k st text
      (out.1, out.2.1))
    oracle 0 iterations ⟨emptyNotes, scenario⟩

/-! ### Thoughts (stepwise) mode -/

/-- The state `thoughts_run` carries across steps. -/
structure ThoughtsState where
  prior_notes : Notes
  thoughts : List String
  current_scenario : String
deriving DecidableEq

/-- One record of `thoughts_run` (note: the parsed payload itself is not
persisted in this mode). -/
structure ThoughtsRecord where
  mode : String
  step : Nat
  model : String
  scenario : String
  prompt_kind : String
  prior_notes : Notes
  next_thought : String
  thoughts_so_far : Nat
  history_window : Int
  change_log : String
deriving DecidableEq

/-- The perturbation fragment appended to the scenario in stepwise mode. -/
def thoughtsFragment (step : Nat) (perturb_text : String) : String :=
  "\n\nCHANGE LOG (step " ++ toString step ++ "): " ++ perturb_text

/-- The user message of one stepwise iteration. -/
def thoughtsPrompt (current_scenario : String) (thoughts : List String)
    (history_window : Int) : String :=
  "SCENARIO:\n" ++ current_scenario ++ "\n\n" ++
  render_thought_history thoughts history_window ++ "\n\n" ++
  "RESPONSE REQUIREMENTS:\n" ++
  "- Return ONE JSON object ONLY; no markdown, no text outside the JSON.\n" ++
  "- Follow the schema exactly; use empty lists [] when unknown.\n\n" ++
  THOUGHTS_INSTRUCTIONS ++ "\n" ++ THOUGHTS_FORMAT ++ "\n" ++ THOUGHTS_EXAMPLE

/-- One stepwise iteration: perturbation check, prompt, parse,
`next_thought` extraction, notes update, thought append, record. -/
def thoughtsStep (scenario : String) (perturb_at : Option Int) (perturb_text : String)
    (history_window : Int) (model : String) (step : Nat) (st : ThoughtsState)
    (text : String) : ThoughtsState × ThoughtsRecord × String :=
  let fired := perturb_at = some (step : Int)
  let current := if fired then scenario ++ thoughtsFragment step perturb_text
                 else st.current_scenario
  let change_log := if fired then
      "CHANGE LOG applied at step " ++ toString step ++ ": " ++ perturb_text
    else ""
  let prompt := thoughtsPrompt current st.thoughts history_window
  let parsed := respOf text
  let nt := nextThoughtOf parsed
  let notes' := thoughtsNotesUpdate st.prior_notes parsed
  let thoughts' := if nt = "" then st.thoughts else st.thoughts ++ [nt]
  (⟨notes', thoughts', current⟩,
   { mode := "thoughts", step := step, model := model, scenario := current,
     prompt_kind := "thoughts", prior_notes := notes', next_thought := nt,
     thoughts_so_far := thoughts'.length, history_window := history_window,
     change_log := change_log },
   prompt)

/-- Embedding of `thoughts_run`: the appended records and the exit code. -/
def thoughts_run (scenario : String) (total_thoughts : Nat) (perturb_at : Option Int)
    (perturb_text : String) (history_window : Int) (model : String)
    (oracle : Nat → CallResult) : List ThoughtsRecord × Nat :=
  runAux
    (fun k st text =>
      let out := thoughtsStep scenario perturb_at perturb_text history_window model
        k st text
      (out.1, out.2.1))
    oracle 0 total_thoughts ⟨emptyNotes, [], scenario⟩

/-! ## Helper lemmas -/

/-- `String.intercalate.go` only ever appends to its accumulator. -/
theorem intercalate_go_extends :
    ∀ (as : List String) (acc s : String),
      ∃ t, String.intercalate.go acc s as = acc ++ t := by
  intro as
  induction as with
  | nil =>
    intro acc s
    exact ⟨"", by simp [String.intercalate.go]⟩
  | cons b bs ih =>
    intro acc s
    obtain ⟨t, ht⟩ := ih (acc ++ s ++ b) s
    refine ⟨s ++ b ++ t, ?_⟩
    show String.intercalate.go (acc ++ s ++ b) s bs = _
    rw [ht]
    simp [String.append_assoc]

/-- Joining a list whose head is nonempty gives a nonempty string. -/
theorem intercalate_cons_ne_empty (x s : String) (xs : List String) (hx : x ≠ "") :
    String.intercalate s (x :: xs) ≠ "" := by
  obtain ⟨t, ht⟩ := intercalate_go_extends xs x s
  have hi : String.intercalate s (x :: xs) = x ++ t := ht
  intro hc
  rw [hi] at hc
  apply hx
  have hlen : x.length + t.length = 0 := by
    have h := congrArg String.length hc
    rw [String.length_append] at h
    exact h
  have hx0 : x.length = 0 := by omega
  cases x with
  | mk data =>
    cases data with
    | nil => rfl
    | cons c cs => simp [String.length] at hx0

/-- The last `k` elements of a list are the first `k` of its reverse. -/
theorem drop_length_sub_reverse {α : Type} (l : List α) (k : Nat) :
    (l.drop (l.length - k)).reverse = l.reverse.take k := by
  rw [List.reverse_drop]
  rcases Nat.le_total k l.length with h | h
  · rw [Nat.sub_sub_self h]
  · rw [Nat.sub_eq_zero_of_le h, Nat.sub_zero, List.take_of_length_le (by simpa using h),
      List.take_of_length_le (by simpa using h)]

/-! ## C7: the note compactor -/

/-- C7.  `compact_notes` is total and, for every input mapping, yields the
four fixed categories where a missing category becomes `[]`, a value that
is not a list is coerced to the singleton of its string conversion, and a
list is truncated to its first `max_items` elements; each category is
bounded by `max_items`; and concretely
`compact_notes {premises: [a,b,c,d]} 3` keeps `[a,b,c]` while
`compact_notes {} 3` leaves all four categories present and empty. -/
theorem C7_compact_notes_normalizes :
    (∀ (entries : List (String × Json)) (m : Nat),
      compact_notes entries m =
        ⟨compactField entries "premises" m, compactField entries "hypotheses" m,
         compactField entries "uncertainties" m, compactField entries "plan_next" m⟩) ∧
    (∀ (entries : List (String × Json)) (k : String) (m : Nat),
      (jget entries k = none → compactField entries k m = []) ∧
      (∀ l, jget entries k = some (Json.arr l) →
        compactField entries k m = l.take m) ∧
      (∀ v, jget entries k = some v → (∀ l, v ≠ Json.arr l) →
        compactField entries k m = [Json.str (pyStr v)].take m) ∧
      (compactField entries k m).length ≤ m) ∧
    compact_notes
        [("premises", Json.arr [Json.str "a", Json.str "b", Json.str "c", Json.str "d"])] 3 =
      ⟨[Json.str "a", Json.str "b", Json.str "c"], [], [], []⟩ ∧
    compact_notes [] 3 = emptyNotes := by
  refine ⟨fun entries m => rfl, fun entries k m => ⟨?_, ?_, ?_, ?_⟩, by decide, by decide⟩
  · intro h; simp [compactField, h]
  · intro l h; simp [compactField, h]
  · intro v h hv
    rcases v with _ | b | n | s | l | o
    · simp [compactField, h, pyStr]
    · simp [compactField, h, pyStr]
    · simp [compactField, h, pyStr]
    · simp [compactField, h, pyStr]
    · exact absurd rfl (hv l)
    · simp [compactField, h, pyStr]
  · rcases hj : jget entries k with _ | v
    · simp [compactField, hj]
    · rcases v with _ | b | n | s | l | o
      all_goals simp [compactField, hj]

/-- Witness for C7 at a concrete mapping. -/
theorem C7_compact_notes_normalizes_witness :
    compactField [("premises", Json.str "solo")] "premises" 3 = [Json.str "solo"] := by
  have h := (C7_compact_notes_normalizes.2.1 [("premises", Json.str "solo")] "premises" 3).2.2.1
  have := h (Json.str "solo") (by decide) (by intro l hl; cases hl)
  simpa using this

/-! ## C9: the rendered thought history -/

/-- C9.  In stepwise mode the rendered history block shows exactly the
most recent `historyWindow` thoughts in most-recent-first order (`take k`
of the reversed history), omits all earlier thoughts, shows the
placeholder line when no thoughts exist, and concretely with window `2`
and history `[t1, t2, t3]` shows `t3` then `t2`, omitting `t1`. -/
theorem C9_render_history_window :
    (∀ (thoughts : List String) (k : Int), 0 < k → thoughts ≠ [] →
      render_thought_history thoughts k =
        "THOUGHT HISTORY (most recent first):\n" ++
          String.intercalate "\n"
            ((thoughts.reverse.take k.toNat).map (fun t => "- " ++ t))) ∧
    (∀ k : Int, render_thought_history [] k =
      "THOUGHT HISTORY (most recent first):\n- (none)") ∧
    render_thought_history ["t1", "t2", "t3"] 2 =
      "THOUGHT HISTORY (most recent first):\n- t3\n- t2" := by
  refine ⟨?_, ?_, by decide⟩
  · intro thoughts k hk hne
    have hcons : ∃ x xs, (thoughts.drop (thoughts.length - k.toNat)).reverse = x :: xs := by
      have hlen : thoughts.length - k.toNat < thoughts.length := by
        have h1 : 0 < thoughts.length := List.length_pos.mpr hne
        have h2 : 0 < k.toNat := by omega
        omega
      have hne' : (thoughts.drop (thoughts.length - k.toNat)) ≠ [] := by
        intro h
        have := List.drop_eq_nil_iff.mp h
        omega
      rcases h : (thoughts.drop (thoughts.length - k.toNat)).reverse with _ | ⟨x, xs⟩
      · exact absurd (by simpa using congrArg List.reverse h) hne'
      · exact ⟨x, xs, rfl⟩
    obtain ⟨x, xs, hx⟩ := hcons
    have hlines :
        String.intercalate "\n"
          (((thoughts.drop (thoughts.length - k.toNat)).reverse).map (fun t => "- " ++ t)) ≠ "" := by
      rw [hx]
      exact intercalate_cons_ne_empty _ _ _ (by
        intro h
        have h2 := congrArg String.length h
        rw [String.length_append] at h2
        have e1 : ("- " : String).length = 2 := rfl
        have e2 : ("" : String).length = 0 := rfl
        rw [e1, e2] at h2
        omega)
    rw [drop_length_sub_reverse] at hlines
    rw [render_thought_history]
    simp only [gt_iff_lt, if_pos hk, drop_length_sub_reverse, if_neg hlines]
  · intro k
    by_cases h : k > 0
    · simp [render_thought_history, h, String.intercalate]
    · simp [render_thought_history, h, String.intercalate]

/-- Witness for C9: the general clause applied at window 2 over a
three-thought history. -/
theorem C9_render_history_window_witness :
    render_thought_history ["a", "b", "c"] 2 =
      "THOUGHT HISTORY (most recent first):\n" ++
        String.intercalate "\n"
          (((["a", "b", "c"] : List String).reverse.take (Int.toNat 2)).map
            (fun t => "- " ++ t)) :=
  C9_render_history_window.1 ["a", "b", "c"] 2 (by decide) (by decide)

/-! ## C5: thought-history growth in stepwise mode -/

/-- C5.  In stepwise mode each step appends the parsed `next_thought`
(string-converted and stripped) to the thought history exactly when it is
nonempty, leaves the history unchanged when it is empty, and the history
before the step is always a prefix of the history after it (the stored
history is never truncated); the persisted `thoughts_so_far` is the length
of the post-step history. -/
theorem C5_thought_history_append_iff_nonempty :
    ∀ (scenario : String) (p : Option Int) (pt : String) (hw : Int) (model : String)
      (step : Nat) (st : ThoughtsState) (text : String),
      (nextThoughtOf (respOf text) ≠ "" →
        (thoughtsStep scenario p pt hw model step st text).1.thoughts =
          st.thoughts ++ [nextThoughtOf (respOf text)]) ∧
      (nextThoughtOf (respOf text) = "" →
        (thoughtsStep scenario p pt hw model step st text).1.thoughts = st.thoughts) ∧
      st.thoughts <+: (thoughtsStep scenario p pt hw model step st text).1.thoughts ∧
      (thoughtsStep scenario p pt hw model step st text).2.1.thoughts_so_far =
        (thoughtsStep scenario p pt hw model step st text).1.thoughts.length := by
  intro scenario p pt hw model step st text
  refine ⟨?_, ?_, ?_, rfl⟩
  · intro h
    simp [thoughtsStep, h]
  · intro h
    simp [thoughtsStep, h]
  · by_cases h : nextThoughtOf (respOf text) = ""
    · simp [thoughtsStep, h]
    · simp [thoughtsStep, h]

/-- Witness for C5 at a concrete successful step and a concrete empty
step. -/
theorem C5_thought_history_append_iff_nonempty_witness :
    (thoughtsStep "s" none "" 5 "m" 0 ⟨emptyNotes, ["t0"], "s"⟩
      "\x7b\"next_thought\": \" go \", \"notes\": \x7b\x7d\x7d").1.thoughts = ["t0", "go"] := by
  have h := (C5_thought_history_append_iff_nonempty "s" none "" 5 "m" 0
    ⟨emptyNotes, ["t0"], "s"⟩
    "\x7b\"next_thought\": \" go \", \"notes\": \x7b\x7d\x7d").1
  rw [h (by decide)]
  decide

/-! ## C10: the persisted `prior_notes` snapshot is post-update -/

/-- C10.  In loop and stepwise modes the record persisted for an iteration
carries the notes state *after* that iteration's update (the same value as
the carried state handed to the next iteration), while the prompt sent to
the model in that iteration is rendered from the notes *before* the update;
the concrete final conjunct exhibits an iteration whose recorded
`prior_notes` differs from the notes that were rendered into its prompt. -/
theorem C10_record_prior_notes_post_update :
    (∀ (scenario : String) (p : Option Int) (pt model : String) (k : Nat)
       (st : LoopState) (text : String),
      ((loopStep scenario p pt model k st text).2.1.prior_notes =
        (loopStep scenario p pt model k st text).1.prior_notes) ∧
      ((loopStep scenario p pt model k st text).2.2 =
        loopPrompt (loopStep scenario p pt model k st text).1.current_scenario
          st.prior_notes)) ∧
    (∀ (scenario : String) (p : Option Int) (pt : String) (hw : Int) (model : String)
       (step : Nat) (st : ThoughtsState) (text : String),
      ((thoughtsStep scenario p pt hw model step st text).2.1.prior_notes =
        (thoughtsStep scenario p pt hw model step st text).1.prior_notes) ∧
      ((thoughtsStep scenario p pt hw model step st text).2.2 =
        thoughtsPrompt (thoughtsStep scenario p pt hw model step st text).1.current_scenario
          st.thoughts hw)) ∧
    (loopStep "s" none "" "m" 0 ⟨⟨[Json.str "a"], [], [], []⟩, "s"⟩
        "\x7b\"notes\": \x7b\"premises\": [\"b\"]\x7d\x7d").2.1.prior_notes ≠
      (⟨⟨[Json.str "a"], [], [], []⟩, "s"⟩ : LoopState).prior_notes := by
  exact ⟨fun _ _ _ _ _ _ _ => ⟨rfl, rfl⟩, fun _ _ _ _ _ _ _ _ => ⟨rfl, rfl⟩, by decide⟩

/-! ## C1 (corrected): a failed parse resets carried notes -/

/-- Counterexample to C1 as stated: a loop-mode iteration whose raw
response `"x"` fails every extraction stage does not leave the carried
notes unchanged — it replaces the nonempty prior notes with the all-empty
notes, because the error payload is itself a dict without a `notes` key
and `parsed.get("notes", {})` then hands the empty dict to the
compactor. -/
theorem C1_counterexample :
    parse_model_json "x" = Except.error (parseErrorMsg "x") ∧
    (loopStep "scn" none "" "m" 1 ⟨⟨[Json.str "a"], [], [], []⟩, "scn"⟩ "x").1.prior_notes =
      emptyNotes ∧
    (loopStep "scn" none "" "m" 1 ⟨⟨[Json.str "a"], [], [], []⟩, "scn"⟩ "x").1.prior_notes ≠
      (⟨⟨[Json.str "a"], [], [], []⟩, "scn"⟩ : LoopState).prior_notes := by
  refine ⟨rfl, by decide, by decide⟩

/-- C1 as amended.  In loop and stepwise modes an iteration whose raw
response fails all extraction stages *resets* the carried notes to the
all-empty notes (the compaction of an empty mapping) rather than leaving
them unchanged; the successful-parse half of the claim does hold: a parse
whose payload is a mapping containing a `notes` mapping replaces the
carried notes with that mapping's compaction. -/
theorem C1_amended_failed_parse_resets_notes :
    (∀ (text msg : String), parse_model_json text = Except.error msg →
      (∀ (scenario : String) (p : Option Int) (pt model : String) (k : Nat)
         (st : LoopState),
        (loopStep scenario p pt model k st text).1.prior_notes = emptyNotes) ∧
      (∀ (scenario : String) (p : Option Int) (pt : String) (hw : Int) (model : String)
         (step : Nat) (st : ThoughtsState),
        (thoughtsStep scenario p pt hw model step st text).1.prior_notes = emptyNotes)) ∧
    (∀ (text : String) (kvs nkvs : List (String × Json)),
      parse_model_json text = Except.ok (Json.obj kvs) →
      jget kvs "notes" = some (Json.obj nkvs) →
      (∀ (scenario : String) (p : Option Int) (pt model : String) (k : Nat)
         (st : LoopState),
        (loopStep scenario p pt model k st text).1.prior_notes = compact_notes nkvs 3) ∧
      (∀ (scenario : String) (p : Option Int) (pt : String) (hw : Int) (model : String)
         (step : Nat) (st : ThoughtsState),
        (thoughtsStep scenario p pt hw model step st text).1.prior_notes =
          compact_notes nkvs 3)) := by
  constructor
  · intro text msg h
    have hresp : respOf text = errorPayload text msg := by
      simp [respOf, h]
    constructor
    · intro scenario p pt model k st
      simp [loopStep, hresp, loopNotesUpdate, errorPayload, jget, compact_notes,
        compactField, emptyNotes]
    · intro scenario p pt hw model step st
      simp [thoughtsStep, hresp, thoughtsNotesUpdate, errorPayload, jget, compact_notes,
        compactField, emptyNotes]
  · intro text kvs nkvs h hn
    have hresp : respOf text = Json.obj kvs := by
      simp [respOf, h]
    constructor
    · intro scenario p pt model k st
      simp [loopStep, hresp, loopNotesUpdate, hn]
    · intro scenario p pt hw model step st
      simp [thoughtsStep, hresp, thoughtsNotesUpdate, hn]

/-- Witness for the amended C1: both halves applied at concrete inputs. -/
theorem C1_amended_failed_parse_resets_notes_witness :
    (loopStep "s" none "" "m" 0 ⟨⟨[Json.str "z"], [], [], []⟩, "s"⟩ "x").1.prior_notes =
      emptyNotes ∧
    (thoughtsStep "s" none "" 5 "m" 0 ⟨⟨[Json.str "z"], [], [], []⟩, [], "s"⟩
        "\x7b\"notes\": \x7b\"premises\": [\"b\"]\x7d\x7d").1.prior_notes =
      compact_notes [("premises", Json.arr [Json.str "b"])] 3 :=
  ⟨(C1_amended_failed_parse_resets_notes.1 "x" (parseErrorMsg "x") rfl).1
      "s" none "" "m" 0 ⟨⟨[Json.str "z"], [], [], []⟩, "s"⟩,
   (C1_amended_failed_parse_resets_notes.2
      "\x7b\"notes\": \x7b\"premises\": [\"b\"]\x7d\x7d"
      [("notes", Json.obj [("premises", Json.arr [Json.str "b"])])]
      [("premises", Json.arr [Json.str "b"])]
      rfl (by decide)).2
      "s" none "" 5 "m" 0 ⟨⟨[Json.str "z"], [], [], []⟩, [], "s"⟩⟩

/-! ## C2 (corrected): the regex rescue is mode-agnostic -/

/-- Counterexample to C2 as stated: in batch (baseline) mode the raw text
`"next_thought": "hi"` fails the first two extraction stages, yet
extraction returns the rescue payload rather than the error condition —
the rescue is keyed on the raw text alone, not on the target schema. -/
theorem C2_counterexample :
    jsonLoads "\"next_thought\": \"hi\"" = none ∧
    extract_json_object "\"next_thought\": \"hi\"" = none ∧
    (baseline_run "scn" 1 "m" (fun _ => CallResult.ok "\"next_thought\": \"hi\"")).1.map
        (fun r => r.response) =
      [Json.obj [("next_thought", Json.str "hi"), ("notes", Json.obj [])]] := by
  refine ⟨by decide, by decide, by decide⟩

/-- C2 as amended.  The last-resort regex rescue is applied in *every*
mode: whenever the first two stages fail and the raw text matches the
`"next_thought"` key pattern, `parse_model_json` returns the minimal
rescue payload, and both a baseline-mode and a loop-mode iteration record
that payload as their response. -/
theorem C2_amended_rescue_mode_agnostic :
    ∀ (text v : String),
      jsonLoads text = none →
      (∀ c, extract_json_object text = some c → jsonLoads c = none) →
      rescueSearch text.toList = some v →
      parse_model_json text =
        Except.ok (Json.obj [("next_thought", Json.str v), ("notes", Json.obj [])]) ∧
      (∀ (scenario model : String) (i : Nat),
        (baseStep scenario model i text).response =
          Json.obj [("next_thought", Json.str v), ("notes", Json.obj [])]) ∧
      (∀ (scenario : String) (p : Option Int) (pt model : String) (k : Nat)
         (st : LoopState),
        (loopStep scenario p pt model k st text).2.1.response =
          Json.obj [("next_thought", Json.str v), ("notes", Json.obj [])]) := by
  intro text v h1 h2 h3
  have hp : parse_model_json text =
      Except.ok (Json.obj [("next_thought", Json.str v), ("notes", Json.obj [])]) := by
    have h3' : rescueSearch text.data = some v := h3
    rcases he : extract_json_object text with _ | c
    · simp [parse_model_json, h1, he, h3']
    · simp [parse_model_json, h1, he, h2 c he, h3']
  refine ⟨hp, fun scenario model i => ?_, fun scenario p pt model k st => ?_⟩
  · simp [baseStep, respOf, hp]
  · simp [loopStep, respOf, hp]

/-- Witness for the amended C2 at the concrete baseline-mode text. -/
theorem C2_amended_rescue_mode_agnostic_witness :
    parse_model_json "\"next_thought\": \"go\"" =
      Except.ok (Json.obj [("next_thought", Json.str "go"), ("notes", Json.obj [])]) :=
  (C2_amended_rescue_mode_agnostic "\"next_thought\": \"go\"" "go" (by decide)
    (by
      intro c hc
      rw [show extract_json_object "\"next_thought\": \"go\"" = none from rfl] at hc
      exact Option.noConfusion hc)
    (by decide)).1

/-! ## Run-level lemmas -/

/-- A run whose calls succeed up to index `j` and hit a transport error at
`j` appends exactly the records of indices `k..j-1` and exits with `1`. -/
theorem runAux_stop {σ ρ : Type} (step : Nat → σ → String → σ × ρ)
    (oracle : Nat → CallResult) (j : Nat) (hfail : (oracle j).isOk = false) :
    ∀ (rem k : Nat) (st : σ), k ≤ j → j < k + rem →
      (∀ i, k ≤ i → i < j → (oracle i).isOk = true) →
      (runAux step oracle k rem st).1.length = j - k ∧
        (runAux step oracle k rem st).2 = 1 := by
  intro rem
  induction rem with
  | zero =>
    intro k st hk hj _
    omega
  | succ r ih =>
    intro k st hk hj hok
    rcases Nat.eq_or_lt_of_le hk with hkj | hkj
    · rcases ho : oracle k with text | msg
      · rw [← hkj, ho] at hfail
        simp [CallResult.isOk] at hfail
      · simp [runAux, ho]
        omega
    · have h0 : (oracle k).isOk = true := hok k (Nat.le_refl k) hkj
      rcases ho : oracle k with text | msg
      · have ihr := ih (k + 1) (step k st text).1 hkj (by omega)
          (fun i h1 h2 => hok i (by omega) h2)
        simp [runAux, ho]
        omega
      · rw [ho] at h0
        simp [CallResult.isOk] at h0

/-- Record formula for successful runs: when every call up to the horizon
succeeds and `inv` is an invariant of the carried state that pins down the
`f`-projection of each appended record, the run's records project to the
formula `g` over the iteration indices. -/
theorem runAux_map_of_inv {σ ρ α : Type} (step : Nat → σ → String → σ × ρ)
    (oracle : Nat → CallResult) (f : ρ → α) (g : Nat → α) (inv : Nat → σ → Prop)
    (hstep : ∀ k st text, inv k st →
      f (step k st text).2 = g k ∧ inv (k + 1) (step k st text).1) :
    ∀ (rem k : Nat) (st : σ), inv k st →
      (∀ i, i < rem → (oracle (k + i)).isOk = true) →
      (runAux step oracle k rem st).1.map f = (List.range' k rem).map g := by
  intro rem
  induction rem with
  | zero =>
    intro k st _ _
    simp [runAux]
  | succ r ih =>
    intro k st hinv hok
    have h0 : (oracle k).isOk = true := by
      have := hok 0 (Nat.succ_pos r)
      simpa using this
    rcases ho : oracle k with text | msg
    · have hs := hstep k st text hinv
      have ihr := ih (k + 1) (step k st text).1 hs.2
        (fun i hi => by
          have := hok (i + 1) (by omega)
          simpa [Nat.add_comm, Nat.add_assoc, Nat.add_left_comm] using this)
      simp [runAux, ho, List.range'_succ k r 1, hs.1, ihr]
    · rw [ho] at h0
      simp [CallResult.isOk] at h0

/-! ## C3: a transport error stops the run after exactly k records -/

/-- C3.  In every mode, if the calls for iterations `0..j-1` succeed and
the call for iteration `j` (with `j < N`) fails with a transport error,
then the run appends exactly `j` complete records and exits with the
non-zero status `1`: the failure is not retried and no record for
iteration `j` is written. -/
theorem C3_transport_error_stops_run :
    ∀ (j N : Nat) (oracle : Nat → CallResult),
      j < N →
      (∀ i, i < j → (oracle i).isOk = true) →
      (oracle j).isOk = false →
      ∀ (scenario model pt : String) (p : Option Int) (hw : Int),
        ((baseline_run scenario N model oracle).1.length = j ∧
          (baseline_run scenario N model oracle).2 = 1) ∧
        ((loop_run scenario N p pt model oracle).1.length = j ∧
          (loop_run scenario N p pt model oracle).2 = 1) ∧
        ((thoughts_run scenario N p pt hw model oracle).1.length = j ∧
          (thoughts_run scenario N p pt hw model oracle).2 = 1) := by
  intro j N oracle hjN hok hfail scenario model pt p hw
  have hok' : ∀ i, 0 ≤ i → i < j → (oracle i).isOk = true := fun i _ h => hok i h
  refine ⟨?_, ?_, ?_⟩
  · have h := runAux_stop (fun k _st text => ((), baseStep scenario model k text))
      oracle j hfail N 0 () (Nat.zero_le j) (by omega) hok'
    simpa [baseline_run] using h
  · have h := runAux_stop
      (fun k st text =>
        let out := loopStep scenario p pt model k st text
        (out.1, out.2.1))
      oracle j hfail N 0 ⟨emptyNotes, scenario⟩ (Nat.zero_le j) (by omega) hok'
    simpa [loop_run] using h
  · have h := runAux_stop
      (fun k st text =>
        let out := thoughtsStep scenario p pt hw model k st text
        (out.1, out.2.1))
      oracle j hfail N 0 ⟨emptyNotes, [], scenario⟩ (Nat.zero_le j) (by omega) hok'
    simpa [thoughts_run] using h

/-- The oracle of the C3 witness: transport failure at iteration 2. -/
def c3oracle : Nat → CallResult := fun i =>
  if i = 2 then CallResult.transportError "connection refused"
  else CallResult.ok "\x7b\x7d"

/-- Witness for C3: a 5-iteration loop run whose third call fails leaves
exactly 2 records and exit code 1. -/
theorem C3_transport_error_stops_run_witness :
    (loop_run "scn" 5 none "" "m" c3oracle).1.length = 2 ∧
      (loop_run "scn" 5 none "" "m" c3oracle).2 = 1 :=
  (C3_transport_error_stops_run 2 5 c3oracle (by omega)
    (fun i hi => by
      have h2 : i ≠ 2 := by omega
      simp [c3oracle, h2, CallResult.isOk])
    (by simp [c3oracle, CallResult.isOk]) "scn" "m" "" none 5).2.1

/-! ## C4: the perturbation fires once and persists -/

/-- One loop iteration under the scenario invariant: the record carries
the perturbed scenario exactly from index `p` on, the change log is
nonempty exactly at index `p`, and the invariant is preserved. -/
theorem loopStep_scenario_inv (scenario pt model : String) (p : Nat) :
    ∀ (k : Nat) (st : LoopState) (text : String),
      st.current_scenario = (if p < k then scenario ++ loopFragment p pt else scenario) →
      ((loopStep scenario (some (p : Int)) pt model k st text).2.1.scenario,
        (loopStep scenario (some (p : Int)) pt model k st text).2.1.change_log) =
        (if p ≤ k then scenario ++ loopFragment p pt else scenario,
          if k = p then
            "CHANGE LOG applied at iteration " ++ toString p ++ ": " ++ pt
          else "") ∧
      (loopStep scenario (some (p : Int)) pt model k st text).1.current_scenario =
        (if p < k + 1 then scenario ++ loopFragment p pt else scenario) := by
  intro k st text hinv
  by_cases hpk : p = k
  · subst hpk
    simp [loopStep]
  · have hfired : ¬ ((some (p : Int) : Option Int) = some (k : Int)) := by
      simp [hpk]
    by_cases hlt : p < k
    · simp [loopStep, hfired, hinv, hlt, Nat.le_of_lt hlt, Nat.lt_succ_of_lt hlt,
        Ne.symm hpk]
    · have hle : ¬ p ≤ k := by omega
      have hlt1 : ¬ p < k + 1 := by omega
      simp [loopStep, hfired, hinv, hlt, hle, hlt1, Ne.symm hpk]

/-- One stepwise iteration under the scenario invariant (the stepwise
analogue of `loopStep_scenario_inv`). -/
theorem thoughtsStep_scenario_inv (scenario pt model : String) (hw : Int) (p : Nat) :
    ∀ (k : Nat) (st : ThoughtsState) (text : String),
      st.current_scenario = (if p < k then scenario ++ thoughtsFragment p pt else scenario) →
      ((thoughtsStep scenario (some (p : Int)) pt hw model k st text).2.1.scenario,
        (thoughtsStep scenario (some (p : Int)) pt hw model k st text).2.1.change_log) =
        (if p ≤ k then scenario ++ thoughtsFragment p pt else scenario,
          if k = p then
            "CHANGE LOG applied at step " ++ toString p ++ ": " ++ pt
          else "") ∧
      (thoughtsStep scenario (some (p : Int)) pt hw model k st text).1.current_scenario =
        (if p < k + 1 then scenario ++ thoughtsFragment p pt else scenario) := by
  intro k st text hinv
  by_cases hpk : p = k
  · subst hpk
    simp [thoughtsStep]
  · have hfired : ¬ ((some (p : Int) : Option Int) = some (k : Int)) := by
      simp [hpk]
    by_cases hlt : p < k
    · simp [thoughtsStep, hfired, hinv, hlt, Nat.le_of_lt hlt, Nat.lt_succ_of_lt hlt,
        Ne.symm hpk]
    · have hle : ¬ p ≤ k := by omega
      have hlt1 : ¬ p < k + 1 := by omega
      simp [thoughtsStep, hfired, hinv, hlt, hle, hlt1, Ne.symm hpk]

/-- C4.  In loop and stepwise modes with perturbation index `p`, every
persisted record of an iteration `k < p` carries the unperturbed scenario
and every record of an iteration `k ≥ p` carries the scenario with the
change-log fragment appended (the perturbation persists); the change-log
field is nonempty exactly at iteration `p`, so the perturbation fires at
most once and exactly at index `p` when reached; the perturbed scenario
contains the perturbation text, and when the perturbation text does not
occur in the base scenario the scenario in effect before index `p` does
not contain it. -/
theorem C4_perturbation_fires_once :
    ∀ (scenario : String) (N p : Nat) (pt model : String) (hw : Int)
      (oracle : Nat → CallResult),
      (∀ i, i < N → (oracle i).isOk = true) →
      ((loop_run scenario N (some (p : Int)) pt model oracle).1.map
          (fun r => (r.scenario, r.change_log)) =
        (List.range N).map (fun k =>
          (if p ≤ k then scenario ++ loopFragment p pt else scenario,
            if k = p then
              "CHANGE LOG applied at iteration " ++ toString p ++ ": " ++ pt
            else ""))) ∧
      ((thoughts_run scenario N (some (p : Int)) pt hw model oracle).1.map
          (fun r => (r.scenario, r.change_log)) =
        (List.range N).map (fun k =>
          (if p ≤ k then scenario ++ thoughtsFragment p pt else scenario,
            if k = p then
              "CHANGE LOG applied at step " ++ toString p ++ ": " ++ pt
            else ""))) ∧
      pt.toList <:+: (scenario ++ loopFragment p pt).toList ∧
      pt.toList <:+: (scenario ++ thoughtsFragment p pt).toList ∧
      (¬ pt.toList <:+: scenario.toList → ∀ k, k < p →
        ¬ pt.toList <:+:
          ((if p ≤ k then scenario ++ loopFragment p pt else scenario)).toList) := by
  intro scenario N p pt model hw oracle hok
  refine ⟨?_, ?_, ?_, ?_, ?_⟩
  · have h := runAux_map_of_inv
      (fun k st text =>
        let out := loopStep scenario (some (p : Int)) pt model k st text
        (out.1, out.2.1))
      oracle (fun r => (r.scenario, r.change_log))
      (fun k =>
        (if p ≤ k then scenario ++ loopFragment p pt else scenario,
          if k = p then
            "CHANGE LOG applied at iteration " ++ toString p ++ ": " ++ pt
          else ""))
      (fun k st => st.current_scenario =
        (if p < k then scenario ++ loopFragment p pt else scenario))
      (fun k st text hinv => loopStep_scenario_inv scenario pt model p k st text hinv)
      N 0 ⟨emptyNotes, scenario⟩ (by simp)
      (fun i hi => by simpa using hok i hi)
    simpa [loop_run, List.range_eq_range'] using h
  · have h := runAux_map_of_inv
      (fun k st text =>
        let out := thoughtsStep scenario (some (p : Int)) pt hw model k st text
        (out.1, out.2.1))
      oracle (fun r => (r.scenario, r.change_log))
      (fun k =>
        (if p ≤ k then scenario ++ thoughtsFragment p pt else scenario,
          if k = p then
            "CHANGE LOG applied at step " ++ toString p ++ ": " ++ pt
          else ""))
      (fun k st => st.current_scenario =
        (if p < k then scenario ++ thoughtsFragment p pt else scenario))
      (fun k st text hinv => thoughtsStep_scenario_inv scenario pt model hw p k st text hinv)
      N 0 ⟨emptyNotes, [], scenario⟩ (by simp)
      (fun i hi => by simpa using hok i hi)
    simpa [thoughts_run, List.range_eq_range'] using h
  · have hsuf : pt.toList <:+ (scenario ++ loopFragment p pt).toList := by
      refine ⟨scenario.toList ++ ("\n\nCHANGE LOG (Iteration " ++ toString p ++ "): ").toList, ?_⟩
      simp [loopFragment, String.toList, String.data_append]
    exact hsuf.isInfix
  · have hsuf : pt.toList <:+ (scenario ++ thoughtsFragment p pt).toList := by
      refine ⟨scenario.toList ++ ("\n\nCHANGE LOG (step " ++ toString p ++ "): ").toList, ?_⟩
      simp [thoughtsFragment, String.toList, String.data_append]
    exact hsuf.isInfix
  · intro hni k hk
    have hle : ¬ p ≤ k := by omega
    simpa [hle] using hni

/-- Witness for C4: a three-iteration loop run perturbed at index 1. -/
theorem C4_perturbation_fires_once_witness :
    (loop_run "base" 3 (some ((1 : Nat) : Int)) "X happened" "m"
        (fun _ => CallResult.ok "\x7b\x7d")).1.map
      (fun r => (r.scenario, r.change_log)) =
    (List.range 3).map (fun k =>
      (if 1 ≤ k then "base" ++ loopFragment 1 "X happened" else "base",
        if k = 1 then
          "CHANGE LOG applied at iteration " ++ toString 1 ++ ": " ++ "X happened"
        else "")) :=
  (C4_perturbation_fires_once "base" 3 1 "X happened" "m" 5
    (fun _ => CallResult.ok "\x7b\x7d") (fun i _ => rfl)).1

/-! ## C6: depth-counted brace matching isolates the first object -/

/-- Net brace depth of a character list: `+1` per `\x7b`, `-1` per `\x7d`. -/
def braceDepth (l : List Char) : Int :=
  (l.count lbrace : Int) - (l.count rbrace : Int)

/-- `body` is the span of a first top-level object: it starts with an
opening brace, its net depth is zero, and every proper nonempty prefix has
positive depth (string values containing brace characters are excluded by
construction, matching the claim's scope). -/
def firstObjOk (body : List Char) : Bool :=
  (body.head? == some lbrace) && (braceDepth body == 0) &&
    ((List.range body.length).all fun i =>
      (i == 0) || decide (0 < braceDepth (body.take i)))

/-- Depth of a cons. -/
theorem braceDepth_cons (c : Char) (l : List Char) :
    braceDepth (c :: l) =
      (if c = lbrace then 1 else if c = rbrace then -1 else 0) + braceDepth l := by
  have hne : lbrace ≠ rbrace := by decide
  by_cases h1 : c = lbrace
  · subst h1
    simp [braceDepth, List.count_cons, hne, Ne.symm hne]
    omega
  · by_cases h2 : c = rbrace
    · subst h2
      simp [braceDepth, List.count_cons, h1, hne, Ne.symm hne]
      omega
    · simp [braceDepth, List.count_cons, h1, h2]

/-- Depth of an append. -/
theorem braceDepth_append (l1 l2 : List Char) :
    braceDepth (l1 ++ l2) = braceDepth l1 + braceDepth l2 := by
  simp [braceDepth, List.count_append]
  omega

/-- One step of the depth-counted scan. -/
theorem scanLen_cons (c : Char) (rest : List Char) (d : Int) :
    scanLen (c :: rest) d =
      if c = lbrace then (scanLen rest (d + 1)).map (· + 1)
      else if c = rbrace then
        if d - 1 = 0 then some 1 else (scanLen rest (d - 1)).map (· + 1)
      else (scanLen rest d).map (· + 1) := rfl

/-- The depth-counted scan consumes exactly a balanced span: if the
running depth `d` stays positive on every proper prefix of `body` and
returns to zero exactly at its end, the scan answers `body.length`,
whatever follows. -/
theorem scanLen_of_balanced :
    ∀ (body : List Char) (d : Int) (rest : List Char),
      body ≠ [] →
      d + braceDepth body = 0 →
      (∀ p, p <+: body → p ≠ body → 0 < d + braceDepth p) →
      scanLen (body ++ rest) d = some body.length := by
  intro body
  induction body with
  | nil => intro d rest h; exact absurd rfl h
  | cons c tl ih =>
    intro d rest _ htot hpre
    have hd : 0 < d := by
      have h := hpre [] ⟨c :: tl, rfl⟩ (by simp)
      simpa [braceDepth] using h
    rcases htl : tl with _ | ⟨c2, tl2⟩
    · subst htl
      by_cases h1 : c = lbrace
      · subst h1
        rw [braceDepth_cons] at htot
        simp [braceDepth] at htot
        omega
      · by_cases h2 : c = rbrace
        · subst h2
          rw [braceDepth_cons] at htot
          simp [braceDepth] at htot
          have hb : ¬ (rbrace = lbrace) := by decide
          have hd1 : d - 1 = 0 := by omega
          rw [List.cons_append, scanLen_cons, if_neg hb, if_pos rfl, if_pos hd1]
          rfl
        · rw [braceDepth_cons] at htot
          simp [h1, h2, braceDepth] at htot
          omega
    · subst htl
      have htlne : (c2 :: tl2) ≠ [] := by simp
      have hpre' : ∀ p, p <+: (c2 :: tl2) → p ≠ (c2 :: tl2) →
          0 < d + braceDepth (c :: p) := by
        intro p hp hne
        exact hpre (c :: p) (List.cons_prefix_cons.mpr ⟨rfl, hp⟩) (by simp [hne])
      by_cases h1 : c = lbrace
      · subst h1
        have ihr := ih (d + 1) rest htlne
          (by rw [braceDepth_cons] at htot; simp at htot; omega)
          (fun p hp hne => by
            have h := hpre' p hp hne
            rw [braceDepth_cons] at h
            simp at h
            omega)
        rw [List.cons_append, scanLen_cons, if_pos rfl, ihr]
        simp
      · by_cases h2 : c = rbrace
        · subst h2
          have hb : ¬ (rbrace = lbrace) := by decide
          have hstop : ¬ (d - 1 = 0) := by
            have h := hpre [rbrace] (List.cons_prefix_cons.mpr ⟨rfl, List.nil_prefix⟩)
              (by simp)
            rw [braceDepth_cons] at h
            simp [hb, braceDepth] at h
            omega
          have ihr := ih (d - 1) rest htlne
            (by
              rw [braceDepth_cons] at htot
              simp [hb] at htot
              omega)
            (fun p hp hne => by
              have h := hpre' p hp hne
              rw [braceDepth_cons] at h
              simp [hb] at h
              omega)
          rw [List.cons_append, scanLen_cons, if_neg hb, if_pos rfl, if_neg hstop, ihr]
          simp
        · have ihr := ih d rest htlne
            (by rw [braceDepth_cons] at htot; simp [h1, h2] at htot; omega)
            (fun p hp hne => by
              have h := hpre' p hp hne
              rw [braceDepth_cons] at h
              simp [h1, h2] at h
              omega)
          rw [List.cons_append, scanLen_cons, if_neg h1, if_neg h2, ihr]
          simp

/-- The scan started at depth `0` on a first-object span answers exactly
the span's length. -/
theorem scanLen_firstObj (body rest : List Char) (h : firstObjOk body = true) :
    scanLen (body ++ rest) 0 = some body.length := by
  have hcomp : (body.head? == some lbrace) = true ∧ (braceDepth body == 0) = true ∧
      ∀ i, i < body.length → i ≠ 0 → 0 < braceDepth (body.take i) := by
    simp only [firstObjOk, Bool.and_eq_true, List.all_eq_true, List.mem_range] at h
    refine ⟨h.1.1, h.1.2, fun i hi hi0 => ?_⟩
    have := h.2 i hi
    simp [hi0] at this
    exact this
  obtain ⟨hhead, htot, hpref⟩ := hcomp
  rw [beq_iff_eq] at htot
  rcases body with _ | ⟨c, tl⟩
  · simp at hhead
  · have hc : c = lbrace := by simpa using hhead
    subst hc
    have htlne : tl ≠ [] := by
      intro h0
      subst h0
      rw [braceDepth_cons] at htot
      simp [braceDepth] at htot
    have hbal : (1 : Int) + braceDepth tl = 0 := by
      rw [braceDepth_cons] at htot
      simp at htot
      omega
    have hp : ∀ p, p <+: tl → p ≠ tl → 0 < 1 + braceDepth p := by
      intro p hp hne
      have hlen : p.length < tl.length := by
        rcases Nat.lt_or_ge p.length tl.length with h | h
        · exact h
        · exact absurd (hp.eq_of_length (Nat.le_antisymm hp.length_le h)) hne
      have htake : (lbrace :: tl).take (p.length + 1) = lbrace :: p := by
        rw [List.take_succ_cons]
        congr 1
        exact (List.prefix_iff_eq_take.mp hp).symm
      have h := hpref (p.length + 1) (by simp only [List.length_cons]; omega) (by omega)
      rw [htake, braceDepth_cons] at h
      simp at h
      omega
    have hscan := scanLen_of_balanced tl 1 rest htlne (by omega) hp
    simp [scanLen, hscan]

/-- C6.  When the stripped-and-defenced raw text splits as `pre ++ body ++
post` with no opening brace in `pre` and `body` a balanced first-object
span (positive depth on every proper prefix, zero at the end), the
extractor's stage-2 depth-counted matching answers exactly `body` —
neither a truncated nor an overextended span. -/
theorem C6_depth_matching_isolates_first_object :
    ∀ (text : String) (pre body post : List Char),
      defence text = pre ++ body ++ post →
      (∀ c, c ∈ pre → c ≠ lbrace) →
      firstObjOk body = true →
      extract_json_object text = some (String.mk body) := by
  intro text pre body post hdef hpre hobj
  have hhead : body.head? = some lbrace := by
    have h : (body.head? == some lbrace) = true := by
      simp only [firstObjOk, Bool.and_eq_true] at hobj
      exact hobj.1.1
    simpa using h
  rcases body with _ | ⟨c, tl⟩
  · simp at hhead
  · have hc : c = lbrace := by simpa using hhead
    subst hc
    have hdrop : (defence text).dropWhile (· ≠ lbrace) = (lbrace :: tl) ++ post := by
      rw [hdef, List.append_assoc, List.dropWhile_append]
      have hnil : (pre.dropWhile (· ≠ lbrace)) = [] := by
        rw [List.dropWhile_eq_nil_iff]
        intro x hx
        simpa using hpre x hx
      rw [hnil]
      simp [List.dropWhile_cons]
    rw [extract_json_object, hdrop]
    have hne : ((lbrace :: tl) ++ post).isEmpty = false := by simp
    rw [if_neg (by simp [hne])]
    rw [scanLen_firstObj (lbrace :: tl) post hobj]
    simp [List.take_left]

/-- Witness for C6 at a concrete nested-object text. -/
theorem C6_depth_matching_isolates_first_object_witness :
    extract_json_object "noise \x7b\"a\": \x7b\"b\": 1\x7d\x7d tail" =
      some (String.mk "\x7b\"a\": \x7b\"b\": 1\x7d\x7d".toList) :=
  C6_depth_matching_isolates_first_object
    "noise \x7b\"a\": \x7b\"b\": 1\x7d\x7d tail"
    "noise ".toList "\x7b\"a\": \x7b\"b\": 1\x7d\x7d".toList " tail".toList
    (by decide) (by decide) (by decide)

/-! ## C8: fenced input parses like its unfenced content -/

/-- The strict parser rejects any input starting with a backtick. -/
theorem parseVal_backtick (fuel : Nat) (t : List Char) :
    parseVal fuel ('`' :: t) = none := by
  cases fuel with
  | zero => rfl
  | succ f => rfl

/-- `json.loads` fails on any text whose first character is a backtick. -/
theorem jsonLoads_backtick (s : String) (t : List Char) (h : s.toList = '`' :: t) :
    jsonLoads s = none := by
  rw [jsonLoads]
  rw [show s.toList = '`' :: t from h]
  rw [parseVal_backtick]

/-- Components of a first-object span. -/
theorem firstObj_parts (body : List Char) (h : firstObjOk body = true) :
    body.head? = some lbrace ∧ braceDepth body = 0 ∧
      ∀ i, i < body.length → i ≠ 0 → 0 < braceDepth (body.take i) := by
  simp only [firstObjOk, Bool.and_eq_true, List.all_eq_true, List.mem_range] at h
  refine ⟨by simpa using h.1.1, by simpa using h.1.2, fun i hi hi0 => ?_⟩
  have := h.2 i hi
  simp [hi0] at this
  exact this

/-- A first-object span starts with the opening brace. -/
theorem firstObj_cons (body : List Char) (h : firstObjOk body = true) :
    ∃ t, body = lbrace :: t := by
  have hhead := (firstObj_parts body h).1
  rcases body with _ | ⟨c, tl⟩
  · simp at hhead
  · have hc : c = lbrace := by simpa using hhead
    exact ⟨tl, by rw [hc]⟩

/-- A first-object span ends with the closing brace. -/
theorem firstObj_concat (body : List Char) (h : firstObjOk body = true) :
    ∃ t, body = t ++ [rbrace] := by
  obtain ⟨hhead, htot, hpref⟩ := firstObj_parts body h
  rcases List.eq_nil_or_concat body with hnil | ⟨init, c, hbc⟩
  · subst hnil
    simp at hhead
  · rw [List.concat_eq_append] at hbc
    subst hbc
    have hc1 : braceDepth [c] =
        (if c = lbrace then 1 else if c = rbrace then -1 else 0) := by
      rw [braceDepth_cons]
      simp [braceDepth]
    rcases init with _ | ⟨c0, init'⟩
    · have hc : c = lbrace := by simpa using hhead
      subst hc
      simp [hc1] at htot
    · have hinitpos : 0 < braceDepth (c0 :: init') := by
        have htake : ((c0 :: init') ++ [c]).take (c0 :: init').length = c0 :: init' :=
          List.take_left _ _
        have hp := hpref (c0 :: init').length (by simp) (by simp)
        rw [htake] at hp
        exact hp
      have hsplit : braceDepth (c0 :: init') + braceDepth [c] = 0 := by
        rw [← braceDepth_append]
        exact htot
      by_cases h1 : c = lbrace
      · rw [hc1] at hsplit
        simp [h1] at hsplit
        omega
      · by_cases h2 : c = rbrace
        · subst h2
          exact ⟨c0 :: init', rfl⟩
        · rw [hc1] at hsplit
          simp [h1, h2] at hsplit
          omega

/-- Dropping a satisfied block from the front of an append. -/
theorem dropWhile_append_all (p : Char → Bool) (l1 l2 : List Char)
    (h1 : ∀ x ∈ l1, p x = true) :
    (l1 ++ l2).dropWhile p = l2.dropWhile p := by
  rw [List.dropWhile_append]
  simp [List.dropWhile_eq_nil_iff.mpr h1]

/-- A `dropWhile` stopped by its head. -/
theorem dropWhile_cons_stop (p : Char → Bool) (c : Char) (l : List Char)
    (h : p c = false) : (c :: l).dropWhile p = c :: l := by
  simp [List.dropWhile_cons, h]

/-- Trailing strip is the identity when the last element survives. -/
theorem dropTrailing_concat (p : Char → Bool) (y : List Char) (d : Char)
    (h : p d = false) :
    ((y ++ [d]).reverse.dropWhile p).reverse = y ++ [d] := by
  rw [List.reverse_append]
  simp only [List.reverse_cons, List.reverse_nil, List.nil_append, List.singleton_append]
  rw [dropWhile_cons_stop p d y.reverse h]
  simp

/-- Whitespace-strip is the identity when both ends survive. -/
theorem pyStripWs_no_op (l : List Char) (c : Char) (t y : List Char) (d : Char)
    (h1 : l = c :: t) (hc : isPyWs c = false) (h2 : l = y ++ [d])
    (hd : isPyWs d = false) : pyStripWs l = l := by
  rw [pyStripWs]
  have hlead : l.dropWhile isPyWs = l := by
    rw [h1]
    exact dropWhile_cons_stop _ _ _ hc
  rw [hlead, h2, dropTrailing_concat _ _ _ hd]

/-- The trailing side of the fence strip removes exactly the closing
fence, stopping at the object's closing brace. -/
theorem stripTail_fence (P u y : List Char) (hu : u = y ++ [rbrace]) :
    ((P ++ u ++ ['\n', '`', '`', '`']).reverse.dropWhile
        ((['`', ' ', '\n'] : List Char).contains)).reverse = P ++ u := by
  subst hu
  rw [List.reverse_append]
  rw [dropWhile_append_all _ _ _ (by decide)]
  have hrev : (P ++ (y ++ [rbrace])).reverse = rbrace :: (y.reverse ++ P.reverse) := by
    simp [List.reverse_append]
  rw [hrev, dropWhile_cons_stop _ _ _ (by decide)]
  simp [List.append_assoc]

/-- C8.  For a raw text that is a balanced first-object span wrapped in a
code fence — with or without a `json` language tag after the opening fence
— the extractor returns exactly the result of parsing the unfenced inner
content directly. -/
theorem C8_fenced_extraction_agrees :
    ∀ (obj : String) (v : Json),
      firstObjOk obj.toList = true →
      jsonLoads obj = some v →
      parse_model_json ("```json\n" ++ obj ++ "\n```") = Except.ok v ∧
      parse_model_json ("```\n" ++ obj ++ "\n```") = Except.ok v := by
  intro obj v hobj hv
  obtain ⟨tl0, hcons⟩ := firstObj_cons obj.toList hobj
  obtain ⟨y, hconcat⟩ := firstObj_concat obj.toList hobj
  have hmk : String.mk obj.toList = obj := by
    rcases obj with ⟨data⟩
    rfl
  have hextract_common : (obj.toList).dropWhile (· ≠ lbrace) = obj.toList := by
    rw [hcons]
    exact dropWhile_cons_stop _ _ _ (by simp)
  have hscan : scanLen obj.toList 0 = some obj.toList.length := by
    have h := scanLen_firstObj obj.toList [] hobj
    rwa [List.append_nil] at h
  have hstage2 : ∀ (text : String), defence text = obj.toList →
      extract_json_object text = some obj := by
    intro text hdef
    rw [extract_json_object, hdef, hextract_common]
    rw [if_neg (by rw [hcons]; simp)]
    rw [hscan]
    show some (String.mk ((obj.toList).take obj.toList.length)) = some obj
    rw [List.take_length, hmk]
  constructor
  · -- tagged fence
    have hT : ("```json\n" ++ obj ++ "\n```").toList =
        "```json\n".toList ++ obj.toList ++ "\n```".toList := by
      simp [String.toList, String.data_append]
    have hstage1 : jsonLoads ("```json\n" ++ obj ++ "\n```") = none := by
      refine jsonLoads_backtick _ (['`', '`', 'j', 's', 'o', 'n', '\n'] ++ obj.toList ++
        "\n```".toList) ?_
      rw [hT]
      rfl
    have hshape2 : ("```json\n" ++ obj ++ "\n```").toList =
        ("```json\n".toList ++ obj.toList ++ ['\n', '`', '`']) ++ ['`'] := by
      rw [hT]
      simp [List.append_assoc]
    have hs0 : pyStripWs ("```json\n" ++ obj ++ "\n```").toList =
        ("```json\n" ++ obj ++ "\n```").toList := by
      refine pyStripWs_no_op _ '`'
        (['`', '`', 'j', 's', 'o', 'n', '\n'] ++ obj.toList ++ "\n```".toList)
        ("```json\n".toList ++ obj.toList ++ ['\n', '`', '`']) '`'
        ?_ (by decide) hshape2 (by decide)
      rw [hT]
      rfl
    have hfence : (['`', '`', '`'] : List Char).isPrefixOf
        ("```json\n" ++ obj ++ "\n```").toList = true := by
      rw [hT]
      rfl
    have hlead : (("```json\n" ++ obj ++ "\n```").toList).dropWhile
        ((['`', ' ', '\n'] : List Char).contains) =
        (['j', 's', 'o', 'n', '\n'] ++ obj.toList) ++ "\n```".toList := by
      rw [hT]
      rfl
    have hstrip : pyStripSet ['`', ' ', '\n'] ("```json\n" ++ obj ++ "\n```").toList =
        ['j', 's', 'o', 'n', '\n'] ++ obj.toList := by
      rw [pyStripSet, hlead]
      exact stripTail_fence ['j', 's', 'o', 'n', '\n'] obj.toList y hconcat
    have htag : (['j', 's', 'o', 'n'] : List Char).isPrefixOf
        (((['j', 's', 'o', 'n', '\n'] ++ obj.toList)).map Char.toLower) = true := by
      rfl
    have hdrop4 : ((['j', 's', 'o', 'n', '\n'] ++ obj.toList)).drop 4 =
        '\n' :: obj.toList := by
      rfl
    have hfinal : pyStripWs ('\n' :: obj.toList) = obj.toList := by
      rw [pyStripWs]
      have h1 : ('\n' :: obj.toList).dropWhile isPyWs = obj.toList := by
        rw [hcons]
        show (('\n' :: lbrace :: tl0).dropWhile isPyWs) = lbrace :: tl0
        rw [List.dropWhile_cons]
        simp only [show isPyWs '\n' = true from rfl, if_true]
        exact dropWhile_cons_stop _ _ _ (by decide)
      rw [h1, hconcat, dropTrailing_concat _ _ _ (by decide), ← hconcat]
    have hdef : defence ("```json\n" ++ obj ++ "\n```") = obj.toList := by
      simp only [defence]
      rw [hs0, if_pos hfence, hstrip, if_pos htag, hdrop4, hfinal]
    have hext := hstage2 _ hdef
    simp [parse_model_json, hstage1, hext, hv]
  · -- bare fence
    have hT : ("```\n" ++ obj ++ "\n```").toList =
        "```\n".toList ++ obj.toList ++ "\n```".toList := by
      simp [String.toList, String.data_append]
    have hstage1 : jsonLoads ("```\n" ++ obj ++ "\n```") = none := by
      refine jsonLoads_backtick _ (['`', '`', '\n'] ++ obj.toList ++ "\n```".toList) ?_
      rw [hT]
      rfl
    have hshape2 : ("```\n" ++ obj ++ "\n```").toList =
        ("```\n".toList ++ obj.toList ++ ['\n', '`', '`']) ++ ['`'] := by
      rw [hT]
      simp [List.append_assoc]
    have hs0 : pyStripWs ("```\n" ++ obj ++ "\n```").toList =
        ("```\n" ++ obj ++ "\n```").toList := by
      refine pyStripWs_no_op _ '`'
        (['`', '`', '\n'] ++ obj.toList ++ "\n```".toList)
        ("```\n".toList ++ obj.toList ++ ['\n', '`', '`']) '`'
        ?_ (by decide) hshape2 (by decide)
      rw [hT]
      rfl
    have hfence : (['`', '`', '`'] : List Char).isPrefixOf
        ("```\n" ++ obj ++ "\n```").toList = true := by
      rw [hT]
      rfl
    have hlead : (("```\n" ++ obj ++ "\n```").toList).dropWhile
        ((['`', ' ', '\n'] : List Char).contains) =
        obj.toList ++ "\n```".toList := by
      rw [hT, hcons]
      rfl
    have hstrip : pyStripSet ['`', ' ', '\n'] ("```\n" ++ obj ++ "\n```").toList =
        obj.toList := by
      rw [pyStripSet, hlead]
      have h := stripTail_fence [] obj.toList y hconcat
      simpa using h
    have htag : (['j', 's', 'o', 'n'] : List Char).isPrefixOf
        ((obj.toList).map Char.toLower) = false := by
      rw [hcons]
      rfl
    have hdef : defence ("```\n" ++ obj ++ "\n```") = obj.toList := by
      simp only [defence]
      rw [hs0, if_pos hfence, hstrip, htag]
      simp
    have hext := hstage2 _ hdef
    simp [parse_model_json, hstage1, hext, hv]

/-- Witness for C8 at a concrete nested object. -/
theorem C8_fenced_extraction_agrees_witness :
    parse_model_json ("```json\n" ++ "\x7b\"a\": \x7b\"b\": 1\x7d\x7d" ++ "\n```") =
      Except.ok (Json.obj [("a", Json.obj [("b", Json.num "1")])]) :=
  (C8_fenced_extraction_agrees "\x7b\"a\": \x7b\"b\": 1\x7d\x7d"
    (Json.obj [("a", Json.obj [("b", Json.num "1")])]) (by decide) (by decide)).1

end SelfThoughts
